import Mathlib

/-!
Shallow embedding of the Tunebat scraper core (`src/scraper-new.js`,
function `scrapeTunebatData`) together with proofs about its
specification.  Strings are modelled as `List Char`; the browser,
the loaded pages and the DOM are modelled as explicit inputs (an
environment), and each effectful step of the source is translated into
a pure function over that environment.
-/

namespace Scraper

/-! ### Character classes

ASCII reading of the JavaScript regex classes `\w` (word characters
`[A-Za-z0-9_]`) and `\s` (whitespace). -/

/-- JavaScript `\w`: ASCII letters, digits and underscore. -/
def isWordChar (c : Char) : Bool := c.isAlpha || c.isDigit || c == '_'

/-- JavaScript `\s` (ASCII part): space, tab, newline, carriage return,
vertical tab, form feed. -/
def isSpaceJS (c : Char) : Bool :=
  c == ' ' || c == '\t' || c == '\n' || c == '\r' || c == '\x0B' || c == '\x0C'

/-! ### The URL slug function `fmt` (source lines 69-73)

`text.replace(A, '').replace(B, '-').replace(C, '-').replace(D, '')`
where A is the class of characters outside word/space/hyphen, B is a
whitespace run, C is a hyphen run and D is a leading or trailing hyphen
run. -/

/-- First step of `fmt`: `replace(/[^\w\s-]/g, '')` keeps only word
characters, whitespace and hyphens. -/
def stripOther (l : List Char) : List Char :=
  l.filter (fun c => isWordChar c || isSpaceJS c || c == '-')

/-- The hyphen test. -/
def isHy (c : Char) : Bool := c == '-'

/-- Replace every maximal run of characters satisfying `p` by the single
character `r`; this is `replace(/X+/g, r)` for a character class `X`.
The flag tracks whether we are inside a run that has already emitted
its replacement. -/
def squashAux (p : Char → Bool) (r : Char) : Bool → List Char → List Char
  | _, [] => []
  | inRun, c :: cs =>
    if p c then
      if inRun then squashAux p r true cs else r :: squashAux p r true cs
    else
      c :: squashAux p r false cs

/-- Remove a trailing run of characters satisfying `p`. -/
def dropTrailing (p : Char → Bool) (l : List Char) : List Char :=
  (l.reverse.dropWhile p).reverse

/-- `replace(/^X+|X+$/g, '')`: remove a leading and a trailing run. -/
def trimEnds (p : Char → Bool) (l : List Char) : List Char :=
  dropTrailing p (l.dropWhile p)

/-- The URL slug function `fmt` from source lines 69-73. -/
def fmt (l : List Char) : List Char :=
  trimEnds isHy (squashAux isHy '-' false (squashAux isSpaceJS '-' false (stripOther l)))

/-- JavaScript `String.prototype.trim` (whitespace from both ends). -/
def trimJS (l : List Char) : List Char := trimEnds isSpaceJS l

/-- The hyphen-joined slug segment of the URL template on source line 75:
the text between `/Info/` and the next `/`. -/
def urlSegment (songName artistName : List Char) : List Char :=
  fmt songName ++ '-' :: fmt artistName

/-- The full URL built on source line 75. -/
def tunebatUrl (songName artistName spotifyTrackId : List Char) : List Char :=
  (("https://tunebat.com/Info/").data) ++ urlSegment songName artistName ++ '/' :: spotifyTrackId

/-! ### Substring search (JavaScript `String.prototype.includes`) -/

/-- `hay.includes(needle)` as exact (case-sensitive) substring search. -/
def containsSub (needle : List Char) : List Char → Bool
  | [] => needle.isEmpty
  | c :: cs => needle.isPrefixOf (c :: cs) || containsSub needle cs

/-! ### The regular-expression patterns of the pattern pass
(source lines 170-183), each implemented as a matcher anchored at a
position: it returns the text of capture group 1 when the pattern
matches at the start of the given character list.  `scanFirst` then
recovers the JavaScript leftmost-match semantics of `String.match`. -/

/-- Case-insensitive comparison of two characters. -/
def lowerEq (a b : Char) : Bool := a.toLower == b.toLower

/-- Match a literal case-insensitively; returns the rest of the input. -/
def eatLitCI : List Char → List Char → Option (List Char)
  | [], s => some s
  | _ :: _, [] => none
  | l :: ls, c :: cs => if lowerEq l c then eatLitCI ls cs else none

/-- Match a literal case-insensitively, returning the matched original
characters together with the rest. -/
def tryLitCI (lit s : List Char) : Option (List Char × List Char) :=
  match eatLitCI lit s with
  | some rest => some (s.take lit.length, rest)
  | none => none

/-- Skip `\s*`. -/
def skipWS (s : List Char) : List Char := s.dropWhile isSpaceJS

/-- Take `\d+` (possibly empty run): the digits and the rest. -/
def takeDigits (s : List Char) : List Char × List Char :=
  (s.takeWhile Char.isDigit, s.dropWhile Char.isDigit)

/-- `[A-G]` under the `/i` flag. -/
def isNoteLetter (c : Char) : Bool :=
  97 ≤ c.toLower.toNat && c.toLower.toNat ≤ 103

/-- `[♯♭]`. -/
def isAccidental (c : Char) : Bool := c == '♯' || c == '♭'

/-- `(?:Major|Minor|maj|min)` under `/i`: alternatives tried in source
order, returning matched original text and rest. -/
def matchQuality (s : List Char) : Option (List Char × List Char) :=
  tryLitCI (("major").data) s <|> tryLitCI (("minor").data) s <|>
    tryLitCI (("maj").data) s <|> tryLitCI (("min").data) s

/-- The capture `([A-G][♯♭]?\s*(?:Major|Minor|maj|min))` under `/i`,
anchored at the current position; this is also the whole second (bare)
key pattern. -/
def pKeyCore : List Char → Option (List Char)
  | [] => none
  | c :: cs =>
    if isNoteLetter c then
      let step : List Char × List Char :=
        match cs with
        | d :: ds => if isAccidental d then ([d], ds) else ([], cs)
        | [] => ([], cs)
      let sp := step.2.takeWhile isSpaceJS
      let s2 := step.2.dropWhile isSpaceJS
      match matchQuality s2 with
      | some q => some (c :: (step.1 ++ sp ++ q.1))
      | none => none
    else none

/-- `/Key:\s*([A-G][♯♭]?\s*(?:Major|Minor|maj|min))/i`. -/
def pKeyLabeled (s : List Char) : Option (List Char) :=
  match eatLitCI (("key:").data) s with
  | some rest => pKeyCore (skipWS rest)
  | none => none

/-- The capture `(\d+[AB])`, with `ci` selecting the `/i` flag. -/
def pCamelotCore (ci : Bool) (s : List Char) : Option (List Char) :=
  let d := takeDigits s
  if d.1.isEmpty then none
  else
    match d.2 with
    | c :: _ =>
      if (if ci then c.toLower == 'a' || c.toLower == 'b' else c == 'A' || c == 'B') then
        some (d.1 ++ [c])
      else none
    | [] => none

/-- `/Camelot:\s*(\d+[AB])/i`. -/
def pCamelotLabeled (s : List Char) : Option (List Char) :=
  match eatLitCI (("camelot:").data) s with
  | some rest => pCamelotCore true (skipWS rest)
  | none => none

/-- `/<label>\s*(\d+)/i` for the labels `BPM:` and `Tempo:`. -/
def pLabeledNum (label : List Char) (s : List Char) : Option (List Char) :=
  match eatLitCI label s with
  | some rest =>
    let d := takeDigits (skipWS rest)
    if d.1.isEmpty then none else some d.1
  | none => none

/-- `/(\d+)\s*BPM/i`. -/
def pBpmBare (s : List Char) : Option (List Char) :=
  let d := takeDigits s
  if d.1.isEmpty then none
  else
    match eatLitCI (("bpm").data) (skipWS d.2) with
    | some _ => some d.1
    | none => none

/-- `/Duration:\s*(\d+:\d+)/i`. -/
def pDuration (s : List Char) : Option (List Char) :=
  match eatLitCI (("duration:").data) s with
  | some rest =>
    let d1 := takeDigits (skipWS rest)
    if d1.1.isEmpty then none
    else
      match d1.2 with
      | ':' :: r3 =>
        let d2 := takeDigits r3
        if d2.1.isEmpty then none else some (d1.1 ++ ':' :: d2.1)
      | _ => none
  | none => none

/-- `/Release Date:\s*([A-Za-z]+\s+\d{1,2},?\s+\d{4})/i`. -/
def pReleaseDate (s : List Char) : Option (List Char) :=
  match eatLitCI (("release date:").data) s with
  | some rest =>
    let r1 := skipWS rest
    let w := r1.takeWhile Char.isAlpha
    if w.isEmpty then none
    else
      let r2 := r1.dropWhile Char.isAlpha
      let sp1 := r2.takeWhile isSpaceJS
      if sp1.isEmpty then none
      else
        let r3 := r2.dropWhile isSpaceJS
        let ds := (r3.takeWhile Char.isDigit).take 2
        if ds.isEmpty then none
        else
          let r4 := r3.drop ds.length
          let comma : List Char × List Char :=
            match r4 with
            | ',' :: t => ([','], t)
            | _ => ([], r4)
          let sp2 := comma.2.takeWhile isSpaceJS
          if sp2.isEmpty then none
          else
            let r6 := comma.2.dropWhile isSpaceJS
            let y := r6.takeWhile Char.isDigit
            if y.length < 4 then none
            else some (w ++ sp1 ++ ds ++ comma.1 ++ sp2 ++ y.take 4)
  | none => none

/-- `/(\d+)\s*(?:\/\s*\d+)?\s*<word>/i` — the shared shape of the
popularity and audio-feature patterns. -/
def pPercent (word : List Char) (s : List Char) : Option (List Char) :=
  let d := takeDigits s
  if d.1.isEmpty then none
  else
    let r2 := skipWS d.2
    let r3 :=
      match r2 with
      | c :: cs =>
        if c == '/' then
          let d2 := takeDigits (skipWS cs)
          if d2.1.isEmpty then r2 else d2.2
        else r2
      | [] => r2
    match eatLitCI word (skipWS r3) with
    | some _ => some d.1
    | none => none

/-- `/([-]?\d+(?:\.\d+)?)\s*(?:dB)?\s*Loudness/i`. -/
def pLoudness (s : List Char) : Option (List Char) :=
  let neg : List Char × List Char :=
    match s with
    | c :: cs => if c == '-' then ([c], cs) else ([], s)
    | [] => ([], s)
  let d := takeDigits neg.2
  if d.1.isEmpty then none
  else
    let frac : List Char × List Char :=
      match d.2 with
      | c :: cs =>
        if c == '.' then
          let d2 := takeDigits cs
          if d2.1.isEmpty then ([], d.2) else (c :: d2.1, d2.2)
        else ([], d.2)
      | [] => ([], d.2)
    let r5 := skipWS frac.2
    let r6 :=
      match eatLitCI (("db").data) r5 with
      | some r => r
      | none => r5
    match eatLitCI (("loudness").data) (skipWS r6) with
    | some _ => some (neg.1 ++ d.1 ++ frac.1)
    | none => none

/-- `/Explicit:\s*Yes/i` as an anchored matcher (only existence is
used, via `.test`, on source line 193). -/
def pExplicit (s : List Char) : Option (List Char) :=
  match eatLitCI (("explicit:").data) s with
  | some r =>
    match eatLitCI (("yes").data) (skipWS r) with
    | some _ => some []
    | none => none
  | none => none

/-- Leftmost-match semantics of `String.prototype.match`: try the
anchored matcher at every position, earliest first. -/
def scanFirst (m : List Char → Option (List Char)) : List Char → Option (List Char)
  | [] => m []
  | c :: cs =>
    match m (c :: cs) with
    | some g => some g
    | none => scanFirst m cs

/-- `findText` from source lines 144-148: the trimmed group 1 text of the first match, or the empty string. -/
def findTextP (m : List Char → Option (List Char)) (text : List Char) : List Char :=
  match scanFirst m text with
  | some g => trimJS g
  | none => []

/-- The per-field pattern loop of source lines 184-191: the first
pattern producing a non-empty value wins, later patterns are not
attempted; with no match the field keeps its default empty string. -/
def tryPatterns (text : List Char) : List (List Char → Option (List Char)) → List Char
  | [] => []
  | p :: rest =>
    let v := findTextP p text
    if v.isEmpty then tryPatterns text rest else v

/-- `/Explicit:\s*Yes/i.test(document.body.textContent)`. -/
def explicitTest (text : List Char) : Bool := (scanFirst pExplicit text).isSome

/-- Ordered pattern list for `key` (source line 171). -/
def keyPats : List (List Char → Option (List Char)) := [pKeyLabeled, pKeyCore]

/-- Ordered pattern list for `camelot` (source line 172); the bare
pattern has no `/i` flag. -/
def camelotPats : List (List Char → Option (List Char)) :=
  [pCamelotLabeled, pCamelotCore false]

/-- Ordered pattern list for `bpm` (source line 173). -/
def bpmPats : List (List Char → Option (List Char)) :=
  [pLabeledNum (("bpm:").data), pLabeledNum (("tempo:").data), pBpmBare]

/-- Pattern list for `duration` (source line 174). -/
def durationPats : List (List Char → Option (List Char)) := [pDuration]

/-- Pattern list for `releaseDate` (source line 174). -/
def releaseDatePats : List (List Char → Option (List Char)) := [pReleaseDate]

/-! ### The in-page data model -/

/-- One recommendation entry (source lines 211-220). -/
structure RecEntry where
  title : List Char
  artist : List Char
  spotifyId : List Char
  key : List Char
  bpm : List Char
  camelot : List Char
  popularity : List Char
  albumArt : List Char
deriving DecidableEq

/-- One repeating `.ant-row.pDoqI` DOM fragment as seen by the parser of
source lines 198-225: the results of its sub-element queries, plus a
possible exception raised by the page while this fragment is read
(caught by the per-fragment `try`/`catch`). -/
structure RecFragment where
  /-- the textContent of `querySelector(.aZDDf)` -/
  qTitle : Option (List Char)
  /-- the textContent of `querySelector(._2zAVA)` -/
  qArtist : Option (List Char)
  /-- the href of `querySelector(.NWuk-[href*="spotify.com"])` -/
  qSpotifyHref : Option (List Char)
  /-- the `querySelectorAll(.lAjUd)` text contents, in document order -/
  qLAjUd : List (List Char)
  /-- the src of `querySelector(img)` -/
  qImgSrc : Option (List Char)
  /-- an exception thrown while this fragment is parsed, if any -/
  throwErr : Option (List Char)
deriving DecidableEq

/-- `spotifyLink.split` at a single separator character (the JavaScript
split; the result is never the empty list). -/
def splitOnChar (sep : Char) : List Char → List (List Char)
  | [] => [[]]
  | c :: cs =>
    match splitOnChar sep cs with
    | [] => [[]]
    | s :: rest => if c == sep then [] :: s :: rest else (c :: s) :: rest

/-- the `split`/`pop` combination of source line 203: the last path segment. -/
def lastSegment (s : List Char) : List Char := (splitOnChar '/' s).getLastD []

/-- The `trackId` derived on source line 203. -/
def derivedId (f : RecFragment) : List Char := lastSegment (f.qSpotifyHref.getD [])

/-- The entry pushed on source lines 211-220. -/
def mkEntry (f : RecFragment) : RecEntry :=
  { title := (f.qTitle.map trimJS).getD []
  , artist := (f.qArtist.map trimJS).getD []
  , spotifyId := derivedId f
  , key := ((f.qLAjUd.get? 0).map trimJS).getD []
  , bpm := ((f.qLAjUd.get? 1).map trimJS).getD []
  , camelot := ((f.qLAjUd.get? 2).map trimJS).getD []
  , popularity := ((f.qLAjUd.get? 3).map trimJS).getD []
  , albumArt := f.qImgSrc.getD [] }

/-- The `recommendedTracks.forEach` loop of source lines 198-225: a
throwing fragment is caught and skipped, a fragment whose derived id is
empty is skipped by the `if (trackId)` guard, every other fragment
pushes one entry, in order. -/
def parseRecs : List RecFragment → List RecEntry
  | [] => []
  | f :: rest =>
    match f.throwErr with
    | some _ => parseRecs rest
    | none => if (derivedId f).isEmpty then parseRecs rest else mkEntry f :: parseRecs rest

/-- The condition under which a fragment contributes an entry. -/
def recOk (f : RecFragment) : Bool := f.throwErr.isNone && !(derivedId f).isEmpty

/-- An image element, for the album-art query of source line 166. -/
structure Img where
  alt : List Char
  src : List Char
deriving DecidableEq

/-- CSS semantics of
`img[alt*="album"], img[alt*="Album"], img[src*="album"]`: attribute
substring matching is case-sensitive. -/
def albumSelMatches (i : Img) : Bool :=
  containsSub (("album").data) i.alt || containsSub (("Album").data) i.alt ||
    containsSub (("album").data) i.src

/-- `getElement(albumSelector)` followed by `.src` (source lines
166-167): first matching image in document order, else empty string. -/
def albumArtOf (imgs : List Img) : List Char :=
  match imgs.find? albumSelMatches with
  | some i => i.src
  | none => []

/-- The rendered page as seen by `page.evaluate`: `querySelector` as an
oracle from selector text to the raw `textContent` of the found element, the
body text used by the pattern pass, the image elements in document
order, and the recommendation fragments in document order. -/
structure Dom where
  q : List Char → Option (List Char)
  bodyText : List Char
  imgs : List Img
  recs : List RecFragment

/-- Selector list for `title` (source line 152). -/
def titleSelectors : List (List Char) :=
  [("h1").data, ("[class*=\"title\"]").data, ("[class*=\"name\"]").data]

/-- Selector list for `artist` (source line 153). -/
def artistSelectors : List (List Char) :=
  [(".artist-name").data, ("[class*=\"artist\"]").data, ("[class*=\"performer\"]").data]

/-- Selector list for `album` (source line 154). -/
def albumSelectors : List (List Char) :=
  [(".album-name").data, ("[class*=\"album\"]").data]

/-- `getText` (source lines 138-141): the first selector that finds an
element wins and its text is trimmed; no element gives the empty
string. -/
def getText (dom : Dom) (sels : List (List Char)) : List Char :=
  match sels.findSome? dom.q with
  | some t => trimJS t
  | none => []

/-- The fixed extraction schema (source lines 106-126 and 227), fields
in source order. -/
structure TrackData where
  title : List Char
  artist : List Char
  album : List Char
  key : List Char
  camelot : List Char
  bpm : List Char
  duration : List Char
  releaseDate : List Char
  explicit : Bool
  popularity : List Char
  energy : List Char
  danceability : List Char
  happiness : List Char
  acousticness : List Char
  instrumentalness : List Char
  liveness : List Char
  speechiness : List Char
  loudness : List Char
  albumArt : List Char
  recommendations : List RecEntry
deriving DecidableEq

/-- The `page.evaluate` body (source lines 105-230): structural pass
for title/artist/album, the gate returning `null` when all three are
empty, then album art, the pattern pass, the explicit flag and the
recommendation list. -/
def extract (dom : Dom) : Option TrackData :=
  let title := getText dom titleSelectors
  let artist := getText dom artistSelectors
  let album := getText dom albumSelectors
  if title.isEmpty && artist.isEmpty && album.isEmpty then none
  else
    some
      { title := title
      , artist := artist
      , album := album
      , key := tryPatterns dom.bodyText keyPats
      , camelot := tryPatterns dom.bodyText camelotPats
      , bpm := tryPatterns dom.bodyText bpmPats
      , duration := tryPatterns dom.bodyText durationPats
      , releaseDate := tryPatterns dom.bodyText releaseDatePats
      , explicit := explicitTest dom.bodyText
      , popularity := tryPatterns dom.bodyText [pPercent (("popularity").data)]
      , energy := tryPatterns dom.bodyText [pPercent (("energy").data)]
      , danceability := tryPatterns dom.bodyText [pPercent (("danceability").data)]
      , happiness := tryPatterns dom.bodyText [pPercent (("happiness").data)]
      , acousticness := tryPatterns dom.bodyText [pPercent (("acousticness").data)]
      , instrumentalness := tryPatterns dom.bodyText [pPercent (("instrumentalness").data)]
      , liveness := tryPatterns dom.bodyText [pPercent (("liveness").data)]
      , speechiness := tryPatterns dom.bodyText [pPercent (("speechiness").data)]
      , loudness := tryPatterns dom.bodyText [pLoudness]
      , albumArt := albumArtOf dom.imgs
      , recommendations := parseRecs dom.recs }

/-! ### The navigation retry loop (source lines 79-248) -/

/-- What one navigation attempt yields: either `page.goto` (or a later
step) throws, or a page is loaded with its serialized content (for the
block check on line 94) and its DOM (for `page.evaluate`). -/
inductive Attempt where
  | navError (msg : List Char)
  | loaded (content : List Char) (dom : Dom)

/-- The block-page check of source line 94. -/
def isBlockedContent (content : List Char) : Bool :=
  containsSub (("security check").data) content ||
    containsSub (("Too Many Requests").data) content

/-- Observable outcome of the retry loop: how many attempts were made
(navigations performed), how many times the debug screenshot was
written, and the extracted record if any. -/
structure LoopState where
  attemptsMade : Nat
  screenshotWrites : Nat
  result : Option TrackData
deriving DecidableEq

/-- The `while (retries > 0)` loop of source lines 82-248, driven by an
environment giving the outcome of the attempt at each index.  On a
blocked page the loop `continue`s after decrementing (no screenshot);
otherwise the screenshot is written, extraction runs, and a non-null
record breaks out of the loop; a thrown error is caught and counts as a
failed attempt. -/
def runLoop (env : Nat → Attempt) : Nat → Nat → LoopState
  | 0, _ => ⟨0, 0, none⟩
  | retries + 1, i =>
    match env i with
    | .navError _ =>
      let s := runLoop env retries (i + 1)
      ⟨s.attemptsMade + 1, s.screenshotWrites, s.result⟩
    | .loaded content dom =>
      if isBlockedContent content then
        let s := runLoop env retries (i + 1)
        ⟨s.attemptsMade + 1, s.screenshotWrites, s.result⟩
      else
        match extract dom with
        | some d => ⟨1, 1, some d⟩
        | none =>
          let s := runLoop env retries (i + 1)
          ⟨s.attemptsMade + 1, s.screenshotWrites + 1, s.result⟩

/-- The loop with its initial budget `retries = 3` (source line 79). -/
def scrapeLoop (env : Nat → Attempt) : LoopState := runLoop env 3 0

/-! ### Result assembly and the public entry point -/

/-- The returned result object.  `data = none` models the empty object
`{}` (and the absent `data` key of the catch-path object);
`url = none` models an absent `url` key; `error = none` models
`undefined`. -/
structure ScrapeResult where
  success : Bool
  url : Option (List Char)
  data : Option TrackData
  error : Option (List Char)
  debugImagePath : List Char
deriving DecidableEq

/-- The effectful environment of one invocation: the result of the
`which chromium` discovery (line 6), of `puppeteer.launch` (line 7), of
the page setup inside the `try` (lines 29-66), and the outcome of each
navigation attempt. -/
structure Env where
  whichChromium : Except (List Char) (List Char)
  launch : Except (List Char) Unit
  setup : Except (List Char) Unit
  attempts : Nat → Attempt

/-- the string `Failed to extract data` (source line 254). -/
def failedMsg : List Char := ("Failed to extract data").data

/-- the string `debug.png` (source lines 102, 255, 263). -/
def debugPath : List Char := ("debug.png").data

/-- The public entry point `scrapeTunebatData` (source lines 5-268).
Discovery and launch happen before the `try` block, so their exceptions
escape (`Except.error`); exceptions inside the `try` before the loop
are caught and become a failure result without a `url` key; otherwise
the loop runs and its outcome is assembled on lines 250-256. -/
def scrapeTunebatData (env : Env) (artistName songName spotifyTrackId : List Char) :
    Except (List Char) ScrapeResult :=
  match env.whichChromium with
  | .error m => .error m
  | .ok _ =>
    match env.launch with
    | .error m => .error m
    | .ok _ =>
      match env.setup with
      | .error m => .ok ⟨false, none, none, some m, debugPath⟩
      | .ok _ =>
        let url := tunebatUrl songName artistName spotifyTrackId
        let st := scrapeLoop env.attempts
        match st.result with
        | some d => .ok ⟨true, some url, some d, none, debugPath⟩
        | none => .ok ⟨false, some url, none, some failedMsg, debugPath⟩

/-! ### Predicates about attempts, used by the loop claims -/

/-- Attempt `i` hits a block page. -/
def blockedAt (env : Nat → Attempt) (i : Nat) : Prop :=
  ∃ content dom, env i = .loaded content dom ∧ isBlockedContent content = true

/-- Attempt `i` fails: navigation throws, or the page is blocked, or
extraction yields no record. -/
def failsAt (env : Nat → Attempt) (i : Nat) : Prop :=
  (∃ m, env i = .navError m) ∨
    ∃ content dom, env i = .loaded content dom ∧
      (isBlockedContent content = true ∨ extract dom = none)

/-- Attempt `i` succeeds with record `d`. -/
def succeedsWith (env : Nat → Attempt) (i : Nat) (d : TrackData) : Prop :=
  ∃ content dom, env i = .loaded content dom ∧
    isBlockedContent content = false ∧ extract dom = some d

/-- Number of the first `n` attempts from index `i` that load a
non-blocked page (these are exactly the attempts that write the debug
screenshot). -/
def nonBlockedCount (env : Nat → Attempt) : Nat → Nat → Nat
  | _, 0 => 0
  | i, n + 1 =>
    (match env i with
     | .loaded content _ => if isBlockedContent content then 0 else 1
     | .navError _ => 0) + nonBlockedCount env (i + 1) n

/-! ### Concrete inputs used by witnesses and counterexamples -/

/-- Body text of the mock page of the end-to-end property. -/
def mockBody : List Char :=
  ("One More Time Daft Punk Key: F Minor 120 BPM Energy: 75 Energy").data

/-- Mock page: an `h1` title plus the body text above. -/
def mockDom : Dom :=
  ⟨fun s => if s = (("h1").data) then some (("One More Time").data) else none,
   mockBody, [], []⟩

/-- A page with no queryable elements and empty body. -/
def emptyDom : Dom := ⟨fun _ => none, [], [], []⟩

/-- A page with no title/artist/album elements but pattern-matchable
body text. -/
def patternOnlyDom : Dom :=
  ⟨fun _ => none, ("Key: F Minor 120 BPM Energy: 75 Energy").data, [], []⟩

/-- A minimal page whose extraction succeeds (title only). -/
def goodDom : Dom :=
  ⟨fun s => if s = (("h1").data) then some (("T").data) else none, [], [], []⟩

/-- The record `extract` produces on `goodDom`. -/
def dGood : TrackData :=
  ⟨("T").data, [], [], [], [], [], [], [], false,
   [], [], [], [], [], [], [], [], [], [], []⟩

/-- A loaded attempt whose content carries a block signature. -/
def blockedAttempt : Attempt := .loaded (("a security check page").data) emptyDom

/-- Every attempt hits a block page. -/
def envAllBlocked : Nat → Attempt := fun _ => blockedAttempt

/-- First attempt blocked, second attempt succeeds. -/
def envSecond : Nat → Attempt := fun i =>
  if i = 0 then blockedAttempt else .loaded [] goodDom

/-- A discovered browser path. -/
def chromiumPath : List Char := ("/usr/bin/chromium").data

/-- Environment in which `puppeteer.launch` throws. -/
def envLaunchFail : Env :=
  ⟨.ok chromiumPath, .error (("boom").data), .ok (), fun _ => .navError []⟩

/-- Environment in which page setup inside the `try` throws. -/
def envSetupFail : Env :=
  ⟨.ok chromiumPath, .ok (), .error (("page crashed").data), fun _ => .navError []⟩

/-- Environment that reaches the loop but never extracts data. -/
def envNoData : Env := ⟨.ok chromiumPath, .ok (), .ok (), envAllBlocked⟩

/-- Environment that extracts data on the first attempt. -/
def envGood : Env := ⟨.ok chromiumPath, .ok (), .ok (), fun _ => .loaded [] goodDom⟩

/-- A spotify track link for a given id. -/
def recHref (id : List Char) : List Char :=
  ("https://open.spotify.com/track/").data ++ id

/-- A well-formed recommendation fragment. -/
def frag (t a id : List Char) : RecFragment :=
  ⟨some t, some a, some (recHref id),
   [("8A").data, ("120").data, ("8A").data, ("70").data],
   some (("art.png").data), none⟩

/-- A fragment with no resolvable spotify link (derived id empty). -/
def fragNoId : RecFragment :=
  ⟨some (("x").data), some (("y").data), none, [], none, none⟩

/-- A fragment whose parse throws (caught per fragment). -/
def fragThrow : RecFragment := ⟨none, none, none, [], none, some (("kaboom").data)⟩

/-- Five fragments of which exactly one lacks an identifier. -/
def batch5 : List RecFragment :=
  [frag (("t1").data) (("a1").data) (("id1").data),
   frag (("t2").data) (("a2").data) (("id2").data),
   fragNoId,
   frag (("t4").data) (("a4").data) (("id4").data),
   frag (("t5").data) (("a5").data) (("id5").data)]

/-- An image whose alt is upper-case "ALBUM" and whose src does not
contain "album". -/
def imgALBUM : Img := ⟨("ALBUM cover").data, ("x.png").data⟩

/-! ### Lemmas about character classes -/

theorem word_not_space {c : Char} (h : isWordChar c = true) : isSpaceJS c = false := by
  rcases Bool.eq_false_or_eq_true (isSpaceJS c) with hs | hs
  · exfalso
    simp only [isSpaceJS, Bool.or_eq_true, beq_iff_eq] at hs
    rcases hs with ((((rfl | rfl) | rfl) | rfl) | rfl) | rfl <;> exact absurd h (by decide)
  · exact hs

theorem word_not_hy {c : Char} (h : isWordChar c = true) : isHy c = false := by
  rcases Bool.eq_false_or_eq_true (isHy c) with hs | hs
  · exfalso
    have hc : c = '-' := by simpa [isHy] using hs
    subst hc
    exact absurd h (by decide)
  · exact hs

theorem isHy_eq_false_iff {c : Char} : isHy c = false ↔ c ≠ '-' := by
  simp [isHy]

/-! ### Lemmas about `squashAux` -/

theorem squashAux_mem {p : Char → Bool} {r c : Char} {l : List Char} :
    ∀ {b : Bool}, c ∈ squashAux p r b l → c = r ∨ (c ∈ l ∧ p c = false) := by
  induction l with
  | nil => intro b h; simp [squashAux] at h
  | cons d ds ih =>
    intro b h
    by_cases hd : p d = true
    · have hmem : c = r ∨ c ∈ squashAux p r true ds := by
        cases b with
        | true =>
          simp only [squashAux, hd, if_true] at h
          exact Or.inr h
        | false =>
          simp only [squashAux, hd, if_true, Bool.false_eq_true, if_false] at h
          exact (List.mem_cons.mp h).imp id id
      rcases hmem with h1 | h1
      · exact Or.inl h1
      · rcases ih h1 with h2 | h3
        · exact Or.inl h2
        · exact Or.inr ⟨List.mem_cons_of_mem _ h3.1, h3.2⟩
    · simp only [squashAux, hd, if_false] at h
      rcases List.mem_cons.mp h with h1 | h1
      · subst h1
        exact Or.inr ⟨List.mem_cons_self _ _, Bool.not_eq_true _ ▸ hd⟩
      · rcases ih h1 with h2 | h3
        · exact Or.inl h2
        · exact Or.inr ⟨List.mem_cons_of_mem _ h3.1, h3.2⟩

theorem mem_squashAux {p : Char → Bool} {r c : Char} {l : List Char}
    (hc : c ∈ l) (hp : p c = false) : ∀ {b : Bool}, c ∈ squashAux p r b l := by
  induction l with
  | nil => cases hc
  | cons d ds ih =>
    intro b
    rcases List.mem_cons.mp hc with h1 | h1
    · subst h1
      simp only [squashAux, hp, Bool.false_eq_true, if_false]
      exact List.mem_cons_self _ _
    · by_cases hd : p d = true
      · cases b with
        | true =>
          simp only [squashAux, hd, if_true]
          exact ih h1
        | false =>
          simp only [squashAux, hd, if_true, Bool.false_eq_true, if_false]
          exact List.mem_cons_of_mem _ (ih h1)
      · simp only [squashAux, hd, if_false]
        exact List.mem_cons_of_mem _ (ih h1)

theorem squashAux_head_true {p : Char → Bool} {r c : Char} {l : List Char}
    (h : (squashAux p r true l).head? = some c) : p c = false := by
  induction l with
  | nil => simp [squashAux] at h
  | cons d ds ih =>
    by_cases hd : p d = true
    · simp only [squashAux, hd, if_true] at h
      exact ih h
    · have hd2 : p d = false := by simpa using hd
      simp only [squashAux, hd2, Bool.false_eq_true, if_false] at h
      simp only [List.head?_cons, Option.some.injEq] at h
      subst h
      exact hd2

theorem squashAux_chain {p : Char → Bool} {r : Char} {l : List Char} :
    ∀ {b : Bool},
      List.Chain' (fun a c => ¬(p a = true ∧ p c = true)) (squashAux p r b l) := by
  induction l with
  | nil => intro b; simp [squashAux]
  | cons d ds ih =>
    intro b
    by_cases hd : p d = true
    · cases b with
      | true => simpa only [squashAux, hd, if_true] using ih
      | false =>
        simp only [squashAux, hd, if_true, Bool.false_eq_true, if_false]
        refine List.chain'_cons'.mpr ⟨?_, ih⟩
        intro y hy hcontra
        exact absurd (squashAux_head_true hy) (by simp [hcontra.2])
    · simp only [squashAux, hd, if_false]
      refine List.chain'_cons'.mpr ⟨?_, ih⟩
      intro y _ hcontra
      exact hd hcontra.1

theorem squashAux_eq_self_of_not {p : Char → Bool} {r : Char} {l : List Char}
    (h : ∀ c ∈ l, p c = false) : ∀ {b : Bool}, squashAux p r b l = l := by
  induction l with
  | nil => intro b; simp [squashAux]
  | cons d ds ih =>
    intro b
    have hd : p d = false := h d (List.mem_cons_self _ _)
    simp only [squashAux, hd, Bool.false_eq_true, if_false]
    exact congrArg (d :: ·) (ih (fun c hc => h c (List.mem_cons_of_mem _ hc)))

theorem squashAux_eq_self_of_chain {p : Char → Bool} {r : Char} {l : List Char}
    (hch : List.Chain' (fun a c => ¬(p a = true ∧ p c = true)) l)
    (hval : ∀ c ∈ l, p c = true → c = r) :
    ∀ {b : Bool}, (b = true → ∀ c, l.head? = some c → p c = false) →
      squashAux p r b l = l := by
  induction l with
  | nil => intro b _; simp [squashAux]
  | cons d ds ih =>
    intro b hb
    have hch' := List.chain'_cons'.mp hch
    by_cases hd : p d = true
    · cases b with
      | true => exact absurd (hb rfl d rfl) (by simp [hd])
      | false =>
        simp only [squashAux, hd, if_true, Bool.false_eq_true, if_false]
        have hdr : d = r := hval d (List.mem_cons_self _ _) hd
        have htail : squashAux p r true ds = ds := by
          refine ih hch'.2 (fun c hc hpc => hval c (List.mem_cons_of_mem _ hc) hpc) ?_
          intro _ c hcd
          rcases Bool.eq_false_or_eq_true (p c) with h0 | h0
          · exact absurd ⟨hd, h0⟩ (hch'.1 c hcd)
          · exact h0
        rw [hdr, htail]
    · have hd2 : p d = false := by simpa using hd
      have htail : squashAux p r false ds = ds := by
        refine ih hch'.2 (fun c hc hpc => hval c (List.mem_cons_of_mem _ hc) hpc) ?_
        intro hfalse
        cases hfalse
      simp only [squashAux, hd2, Bool.false_eq_true, if_false, htail]

/-! ### Lemmas about `dropWhile`, `dropTrailing` and `trimEnds` -/

theorem dropWhile_head_not {p : Char → Bool} {l : List Char} {c : Char}
    (h : (l.dropWhile p).head? = some c) : p c = false := by
  have hd := List.head?_dropWhile_not p l
  rw [h] at hd
  exact hd

theorem dropWhile_eq_self_of_head {p : Char → Bool} {l : List Char}
    (h : ∀ c, l.head? = some c → p c = false) : l.dropWhile p = l := by
  cases l with
  | nil => rfl
  | cons d ds =>
    have hd : p d = false := h d rfl
    simp [List.dropWhile_cons, hd]

theorem mem_dropWhile_of_not {p : Char → Bool} {l : List Char} {c : Char}
    (hc : c ∈ l) (hp : p c = false) : c ∈ l.dropWhile p := by
  induction l with
  | nil => cases hc
  | cons d ds ih =>
    rcases List.mem_cons.mp hc with h1 | h1
    · subst h1
      simp [List.dropWhile_cons, hp]
    · by_cases hd : p d = true
      · simpa [List.dropWhile_cons, hd] using ih h1
      · have hd2 : p d = false := by simpa using hd
        simp only [List.dropWhile_cons, hd2, Bool.false_eq_true, if_false]
        exact hc

theorem dropTrailing_pre (p : Char → Bool) (l : List Char) :
    dropTrailing p l <+: l := by
  have h1 : l.reverse.dropWhile p <:+ l.reverse := List.dropWhile_suffix p
  have h2 : (l.reverse.dropWhile p).reverse.reverse <:+ l.reverse := by
    simpa using h1
  exact List.reverse_suffix.mp h2

theorem trimEnds_inf (p : Char → Bool) (l : List Char) : trimEnds p l <:+: l :=
  List.IsInfix.trans ( List.IsPrefix.isInfix (dropTrailing_pre p (l.dropWhile p)))
    ( List.IsSuffix.isInfix ( List.dropWhile_suffix p))

theorem prefix_head_eq {l₁ l₂ : List Char} {c : Char} (hp : l₁ <+: l₂)
    (h : l₁.head? = some c) : l₂.head? = some c := by
  obtain ⟨t, rfl⟩ := hp
  cases l₁ with
  | nil => cases h
  | cons x xs => simpa using h

theorem trimEnds_head {p : Char → Bool} {l : List Char} {c : Char}
    (h : (trimEnds p l).head? = some c) : p c = false := by
  have hpre : trimEnds p l <+: l.dropWhile p := dropTrailing_pre p (l.dropWhile p)
  exact dropWhile_head_not (prefix_head_eq hpre h)

theorem trimEnds_getLast {p : Char → Bool} {l : List Char} {c : Char}
    (h : (trimEnds p l).getLast? = some c) : p c = false := by
  have hrev : (trimEnds p l).reverse.head? = some c := by
    rw [List.head?_reverse]
    exact h
  have : ((l.dropWhile p).reverse.dropWhile p).head? = some c := by
    simpa [trimEnds, dropTrailing] using hrev
  exact dropWhile_head_not this

theorem mem_trimEnds_of_not {p : Char → Bool} {l : List Char} {c : Char}
    (hc : c ∈ l) (hp : p c = false) : c ∈ trimEnds p l := by
  have h1 : c ∈ l.dropWhile p := mem_dropWhile_of_not hc hp
  have h2 : c ∈ (l.dropWhile p).reverse := List.mem_reverse.mpr h1
  have h3 : c ∈ (l.dropWhile p).reverse.dropWhile p := mem_dropWhile_of_not h2 hp
  exact List.mem_reverse.mpr h3

theorem trimEnds_eq_self {p : Char → Bool} {l : List Char}
    (h1 : ∀ c, l.head? = some c → p c = false)
    (h2 : ∀ c, l.getLast? = some c → p c = false) : trimEnds p l = l := by
  have hdrop : l.dropWhile p = l := dropWhile_eq_self_of_head h1
  have hrev : l.reverse.dropWhile p = l.reverse := by
    refine dropWhile_eq_self_of_head ?_
    intro c hc
    exact h2 c (by rwa [List.head?_reverse] at hc)
  simp [trimEnds, dropTrailing, hdrop, hrev]

/-! ### Lemmas about `fmt` -/

theorem fmt_mem {l : List Char} {c : Char} (h : c ∈ fmt l) :
    c = '-' ∨ (c ∈ l ∧ isWordChar c = true) := by
  have h1 : c ∈ squashAux isHy '-' false (squashAux isSpaceJS '-' false (stripOther l)) :=
    (trimEnds_inf isHy _).subset h
  rcases squashAux_mem h1 with h2 | h2
  · exact Or.inl h2
  · rcases squashAux_mem h2.1 with h3 | h3
    · exact absurd (h3 ▸ h2.2) (by decide)
    · have h4 := List.mem_filter.mp h3.1
      refine Or.inr ⟨h4.1, ?_⟩
      have h5 := h4.2
      simp only [Bool.or_eq_true, beq_iff_eq] at h5
      rcases h5 with (hw | hs) | hh
      · exact hw
      · exact absurd hs (by simp [h3.2])
      · exact absurd (hh ▸ h2.2) (by decide)

theorem fmt_head_ne {l : List Char} {c : Char} (h : (fmt l).head? = some c) : c ≠ '-' :=
  isHy_eq_false_iff.mp (trimEnds_head h)

theorem fmt_getLast_ne {l : List Char} {c : Char} (h : (fmt l).getLast? = some c) : c ≠ '-' :=
  isHy_eq_false_iff.mp (trimEnds_getLast h)

theorem fmt_chain (l : List Char) :
    List.Chain' (fun a b => ¬(isHy a = true ∧ isHy b = true)) (fmt l) :=
  List.Chain'.infix squashAux_chain (trimEnds_inf isHy _)

theorem fmt_nospace {l : List Char} {c : Char} (h : c ∈ fmt l) : isSpaceJS c = false := by
  rcases fmt_mem h with h1 | h1
  · subst h1; decide
  · exact word_not_space h1.2

theorem fmt_idem (l : List Char) : fmt (fmt l) = fmt l := by
  have hstrip : stripOther (fmt l) = fmt l := by
    refine List.filter_eq_self.mpr ?_
    intro c hc
    rcases fmt_mem hc with h1 | h1
    · subst h1; decide
    · simp [h1.2]
  have hsp : squashAux isSpaceJS '-' false (fmt l) = fmt l :=
    squashAux_eq_self_of_not (fun c hc => fmt_nospace hc)
  have hhy : squashAux isHy '-' false (fmt l) = fmt l := by
    refine squashAux_eq_self_of_chain (fmt_chain l) ?_ ?_
    · intro c _ hc
      simpa [isHy] using hc
    · intro hfalse
      cases hfalse
  have htrim : trimEnds isHy (fmt l) = fmt l := by
    refine trimEnds_eq_self ?_ ?_
    · intro c hc
      exact isHy_eq_false_iff.mpr (fmt_head_ne hc)
    · intro c hc
      exact isHy_eq_false_iff.mpr (fmt_getLast_ne hc)
  show trimEnds isHy
      (squashAux isHy '-' false (squashAux isSpaceJS '-' false (stripOther (fmt l)))) = fmt l
  rw [hstrip, hsp, hhy, htrim]

theorem fmt_mem_word {l : List Char} {c : Char} (hc : c ∈ l) (hw : isWordChar c = true) :
    c ∈ fmt l := by
  have h1 : c ∈ stripOther l := List.mem_filter.mpr ⟨hc, by simp [hw]⟩
  have h2 : c ∈ squashAux isSpaceJS '-' false (stripOther l) :=
    mem_squashAux h1 (word_not_space hw)
  have h3 : c ∈ squashAux isHy '-' false (squashAux isSpaceJS '-' false (stripOther l)) :=
    mem_squashAux h2 (word_not_hy hw)
  exact mem_trimEnds_of_not h3 (word_not_hy hw)

theorem fmt_eq_nil_of_no_word {l : List Char} (h : ∀ c ∈ l, isWordChar c = false) :
    fmt l = [] := by
  cases hf : fmt l with
  | nil => rfl
  | cons d ds =>
    exfalso
    have hd : (fmt l).head? = some d := by rw [hf]; rfl
    have hne := fmt_head_ne hd
    have hmem : d ∈ fmt l := by
      rw [hf]
      exact List.mem_cons_self _ _
    rcases fmt_mem hmem with h1 | h1
    · exact hne h1
    · have hfalse := h d h1.1
      rw [h1.2] at hfalse
      simp at hfalse

/-- C3: the slug function is idempotent; its output never starts or ends
with a hyphen and never contains two consecutive hyphens; an input with
at least one word character slugs to a non-empty output. -/
theorem fmt_slug_spec (s : List Char) :
    fmt (fmt s) = fmt s ∧
    (∀ c, (fmt s).head? = some c → c ≠ '-') ∧
    (∀ c, (fmt s).getLast? = some c → c ≠ '-') ∧
    List.Chain' (fun a b => a ≠ '-' ∨ b ≠ '-') (fmt s) ∧
    ((∃ c ∈ s, isWordChar c = true) → fmt s ≠ []) := by
  refine ⟨fmt_idem s, fun c hc => fmt_head_ne hc, fun c hc => fmt_getLast_ne hc, ?_, ?_⟩
  · refine List.Chain'.imp ?_ (fmt_chain s)
    intro a b hab
    by_cases ha : a = '-'
    · right
      intro hb
      exact hab ⟨by simp [isHy, ha], by simp [isHy, hb]⟩
    · exact Or.inl ha
  · rintro ⟨c, hc, hw⟩
    exact List.ne_nil_of_mem (fmt_mem_word hc hw)

/-- Witness for `fmt_slug_spec` at the concrete input "a b". -/
theorem fmt_slug_spec_witness :
    (∃ c ∈ (("a b").data), isWordChar c = true) ∧ fmt (("a b").data) ≠ [] :=
  ⟨by decide, (fmt_slug_spec (("a b").data)).2.2.2.2 (by decide)⟩

/-- C10: if the song name has no word characters and the artist name has
at least one, the composed slug segment is exactly a hyphen followed by
the artist slug, so it begins with a hyphen; symmetrically, an artist
name with no word characters yields a segment ending in a hyphen. -/
theorem url_segment_edge_spec (song artist : List Char) :
    ((∀ c ∈ song, isWordChar c = false) → (∃ c ∈ artist, isWordChar c = true) →
      urlSegment song artist = '-' :: fmt artist ∧
        (urlSegment song artist).head? = some '-') ∧
    ((∃ c ∈ song, isWordChar c = true) → (∀ c ∈ artist, isWordChar c = false) →
      urlSegment song artist = fmt song ++ ['-'] ∧
        (urlSegment song artist).getLast? = some '-') := by
  constructor
  · intro hs _
    have h1 : fmt song = [] := fmt_eq_nil_of_no_word hs
    exact ⟨by simp [urlSegment, h1], by simp [urlSegment, h1]⟩
  · intro _ ha
    have h1 : fmt artist = [] := fmt_eq_nil_of_no_word ha
    constructor
    · simp [urlSegment, h1]
    · rw [urlSegment, h1]
      exact List.getLast?_concat _

/-- Witness for `url_segment_edge_spec` at concrete inputs. -/
theorem url_segment_edge_spec_witness :
    (urlSegment (("!!").data) (("ab").data) = '-' :: fmt (("ab").data) ∧
      (urlSegment (("!!").data) (("ab").data)).head? = some '-') ∧
    (urlSegment (("ab").data) (("!!").data) = fmt (("ab").data) ++ ['-'] ∧
      (urlSegment (("ab").data) (("!!").data)).getLast? = some '-') :=
  ⟨(url_segment_edge_spec (("!!").data) (("ab").data)).1 (by decide) (by decide),
   (url_segment_edge_spec (("ab").data) (("!!").data)).2 (by decide) (by decide)⟩

/-! ### Lemmas about the retry loop -/

theorem runLoop_blocked {env : Nat → Attempt} :
    ∀ {n i : Nat}, (∀ j, j < n → blockedAt env (i + j)) →
      runLoop env n i = ⟨n, 0, none⟩ := by
  intro n
  induction n with
  | zero => intro i _; rfl
  | succ m ih =>
    intro i h
    obtain ⟨content, dom, henv, hblock⟩ := h 0 (Nat.succ_pos m)
    rw [Nat.add_zero] at henv
    have hrec : runLoop env m (i + 1) = ⟨m, 0, none⟩ := by
      refine ih ?_
      intro j hj
      have hb := h (j + 1) (Nat.succ_lt_succ hj)
      rwa [(show i + (j + 1) = i + 1 + j by omega)] at hb
    simp [runLoop, henv, hblock, hrec]

theorem runLoop_success {env : Nat → Attempt} {d : TrackData} :
    ∀ {j n i : Nat}, j < n → (∀ t, t < j → failsAt env (i + t)) →
      succeedsWith env (i + j) d →
      (runLoop env n i).attemptsMade = j + 1 ∧ (runLoop env n i).result = some d := by
  intro j
  induction j with
  | zero =>
    intro n i hn _ hsucc
    obtain ⟨content, dom, henv, hnb, hex⟩ := hsucc
    rw [Nat.add_zero] at henv
    obtain ⟨m, rfl⟩ : ∃ m, n = m + 1 := ⟨n - 1, by omega⟩
    simp [runLoop, henv, hnb, hex]
  | succ k ih =>
    intro n i hn hfail hsucc
    obtain ⟨m, rfl⟩ : ∃ m, n = m + 1 := ⟨n - 1, by omega⟩
    have hrec : (runLoop env m (i + 1)).attemptsMade = k + 1 ∧
        (runLoop env m (i + 1)).result = some d := by
      refine ih (by omega) ?_ ?_
      · intro t ht
        have hf := hfail (t + 1) (by omega)
        rwa [(show i + (t + 1) = i + 1 + t by omega)] at hf
      · have hs := hsucc
        rwa [(show i + (k + 1) = i + 1 + k by omega)] at hs
    have h0 := hfail 0 (Nat.succ_pos k)
    rw [Nat.add_zero] at h0
    rcases h0 with ⟨msg, henv⟩ | ⟨content, dom, henv, hcd⟩
    · constructor
      · simp [runLoop, henv, hrec.1]
      · simp [runLoop, henv, hrec.2]
    · rcases Bool.eq_false_or_eq_true (isBlockedContent content) with hb | hb
      · constructor
        · simp [runLoop, henv, hb, hrec.1]
        · simp [runLoop, henv, hb, hrec.2]
      · have hex : extract dom = none := by
          rcases hcd with hb2 | hex
          · rw [hb2] at hb
            cases hb
          · exact hex
        constructor
        · simp [runLoop, henv, hb, hex, hrec.1]
        · simp [runLoop, henv, hb, hex, hrec.2]

theorem runLoop_result_extract {env : Nat → Attempt} {d : TrackData} :
    ∀ {n i : Nat}, (runLoop env n i).result = some d → ∃ dm, extract dm = some d := by
  intro n
  induction n with
  | zero => intro i h; cases h
  | succ m ih =>
    intro i h
    rcases henv : env i with msg | ⟨content, dom⟩
    · simp only [runLoop, henv] at h
      exact ih h
    · rcases Bool.eq_false_or_eq_true (isBlockedContent content) with hb | hb
      · simp only [runLoop, henv, hb, if_true] at h
        exact ih h
      · rcases hex : extract dom with _ | d2
        · simp only [runLoop, henv, hb, Bool.false_eq_true, if_false, hex] at h
          exact ih h
        · simp only [runLoop, henv, hb, Bool.false_eq_true, if_false, hex] at h
          exact ⟨dom, hex.trans (by simpa using h)⟩

theorem runLoop_shots {env : Nat → Attempt} :
    ∀ {n i : Nat}, (runLoop env n i).screenshotWrites =
      nonBlockedCount env i (runLoop env n i).attemptsMade := by
  intro n
  induction n with
  | zero => intro i; rfl
  | succ m ih =>
    intro i
    rcases henv : env i with msg | ⟨content, dom⟩
    · simp [runLoop, henv, nonBlockedCount, ih]
    · rcases Bool.eq_false_or_eq_true (isBlockedContent content) with hb | hb
      · simp [runLoop, henv, hb, nonBlockedCount, ih]
      · rcases hex : extract dom with _ | d2
        · simp only [runLoop, henv, hb, Bool.false_eq_true, if_false, hex]
          simp [nonBlockedCount, henv, hb, ih]
          omega
        · simp [runLoop, henv, hb, hex, nonBlockedCount]

/-! ### Claim theorems about the loop, the screenshots and the results -/

/-- C2: with the budget of 3 attempts, a permanently blocked page gives
exactly 3 attempts and no record, never fewer, never more; and a
success on attempt j+1 with j+1 at most 3, after j failing attempts,
stops the loop after exactly j+1 attempts with that record. -/
theorem retry_budget_spec (env : Nat → Attempt) :
    ((∀ i, i < 3 → blockedAt env i) →
      (scrapeLoop env).attemptsMade = 3 ∧ (scrapeLoop env).result = none) ∧
    (∀ j d, j < 3 → (∀ t, t < j → failsAt env t) → succeedsWith env j d →
      (scrapeLoop env).attemptsMade = j + 1 ∧ (scrapeLoop env).result = some d) := by
  constructor
  · intro h
    have hb : runLoop env 3 0 = ⟨3, 0, none⟩ := by
      refine runLoop_blocked ?_
      intro j hj
      simpa using h j hj
    rw [scrapeLoop, hb]
    exact ⟨rfl, rfl⟩
  · intro j d hj hfail hsucc
    have hs := runLoop_success (n := 3) (i := 0) (d := d) (j := j) hj
      (fun t ht => by simpa using hfail t ht) (by simpa using hsucc)
    rw [scrapeLoop]
    exact hs

/-- Witness for `retry_budget_spec`: all attempts blocked gives 3
attempts; blocked first attempt then success gives exactly 2. -/
theorem retry_budget_spec_witness :
    ((scrapeLoop envAllBlocked).attemptsMade = 3 ∧
      (scrapeLoop envAllBlocked).result = none) ∧
    ((scrapeLoop envSecond).attemptsMade = 2 ∧
      (scrapeLoop envSecond).result = some dGood) := by
  constructor
  · exact (retry_budget_spec envAllBlocked).1
      (fun i _ => ⟨(("a security check page").data), emptyDom, rfl, by decide⟩)
  · refine (retry_budget_spec envSecond).2 1 dGood (by decide) ?_ ?_
    · intro t ht
      have ht0 : t = 0 := by omega
      subst ht0
      exact Or.inr ⟨(("a security check page").data), emptyDom, rfl, Or.inl (by decide)⟩
    · exact ⟨[], goodDom, rfl, by decide, by decide⟩

/-- C8 counterexample: with every attempt hitting a block signature, 3
attempts are made but the screenshot is written 0 times — the
`continue` after the block check skips the screenshot, so it is not
written unconditionally on every attempt. -/
theorem screenshot_blocked_cex :
    (scrapeLoop envAllBlocked).attemptsMade = 3 ∧
    (scrapeLoop envAllBlocked).screenshotWrites = 0 ∧
    (scrapeLoop envAllBlocked).screenshotWrites ≠ (scrapeLoop envAllBlocked).attemptsMade := by
  decide

/-- C8 amended: the debug screenshot is written exactly on the attempts
that load a page passing the block check (blocked attempts skip it via
`continue`), and the debug image path is included in the returned
result on every exit path. -/
theorem screenshot_spec (env : Env) (a s t : List Char) :
    (∀ n i, (runLoop env.attempts n i).screenshotWrites =
      nonBlockedCount env.attempts i (runLoop env.attempts n i).attemptsMade) ∧
    (∀ r, scrapeTunebatData env a s t = .ok r → r.debugImagePath = debugPath) := by
  constructor
  · intro n i
    exact runLoop_shots
  · intro r hr
    simp only [scrapeTunebatData] at hr
    rcases hwc : env.whichChromium with m | w
    · rw [hwc] at hr
      cases hr
    · rw [hwc] at hr
      rcases hl : env.launch with m | u
      · rw [hl] at hr
        cases hr
      · rw [hl] at hr
        rcases hst : env.setup with m | u2
        · rw [hst] at hr
          simp only [Except.ok.injEq] at hr
          subst hr
          rfl
        · rw [hst] at hr
          rcases hres : (scrapeLoop env.attempts).result with _ | d
          · rw [hres] at hr
            simp only [Except.ok.injEq] at hr
            subst hr
            rfl
          · rw [hres] at hr
            simp only [Except.ok.injEq] at hr
            subst hr
            rfl

/-- Witness for `screenshot_spec` at a concrete environment. -/
theorem screenshot_spec_witness :
    (runLoop envNoData.attempts 3 0).screenshotWrites =
      nonBlockedCount envNoData.attempts 0 (runLoop envNoData.attempts 3 0).attemptsMade ∧
    (⟨false, some (tunebatUrl [] [] []), none, some failedMsg, debugPath⟩ :
      ScrapeResult).debugImagePath = debugPath := by
  constructor
  · exact (screenshot_spec envNoData [] [] []).1 3 0
  · exact (screenshot_spec envNoData [] [] []).2 _ rfl

/-! ### Error-path, gate, extraction and parser claims -/

/-- C1 counterexample: when `puppeteer.launch` throws, the exception
escapes `scrapeTunebatData` uncaught — the launch happens before the
`try` block — so the call does not return a `success:false` result. -/
theorem launch_exception_escapes_cex :
    scrapeTunebatData envLaunchFail [] [] [] = .error (("boom").data) ∧
      (scrapeTunebatData envLaunchFail [] [] []).toOption = none :=
  ⟨rfl, rfl⟩

/-- C1 amended: exceptions thrown during executable discovery or
browser launch escape the entry point uncaught; an exception thrown
inside the `try` block before the retry loop is caught and yields
`success:false` with the exception message and no url key. -/
theorem error_path_spec (env : Env) (a s t : List Char) :
    (∀ m, env.whichChromium = .error m → scrapeTunebatData env a s t = .error m) ∧
    (∀ w m, env.whichChromium = .ok w → env.launch = .error m →
      scrapeTunebatData env a s t = .error m) ∧
    (∀ w m, env.whichChromium = .ok w → env.launch = .ok () → env.setup = .error m →
      scrapeTunebatData env a s t = .ok ⟨false, none, none, some m, debugPath⟩) := by
  refine ⟨?_, ?_, ?_⟩
  · intro m hm
    simp [scrapeTunebatData, hm]
  · intro w m hw hm
    simp [scrapeTunebatData, hw, hm]
  · intro w m hw hl hm
    simp [scrapeTunebatData, hw, hl, hm]

/-- Witness for `error_path_spec`: a concrete setup failure is caught. -/
theorem error_path_spec_witness :
    scrapeTunebatData envSetupFail [] [] [] =
      .ok ⟨false, none, none, some (("page crashed").data), debugPath⟩ :=
  (error_path_spec envSetupFail [] [] []).2.2 chromiumPath (("page crashed").data) rfl rfl rfl

/-- C4: when the structural pass finds none of title, artist and album,
extraction returns no record, regardless of what the body text (and so
the pattern pass) contains. -/
theorem extract_gate_spec (dom : Dom)
    (ht : getText dom titleSelectors = [])
    (ha : getText dom artistSelectors = [])
    (hal : getText dom albumSelectors = []) :
    extract dom = none := by
  simp [extract, ht, ha, hal]

/-- Witness for `extract_gate_spec`: a page with no structural anchors
but with pattern-matchable body text still extracts to no record. -/
theorem extract_gate_spec_witness :
    getText patternOnlyDom titleSelectors = [] ∧
    tryPatterns patternOnlyDom.bodyText keyPats = ("F Minor").data ∧
    extract patternOnlyDom = none :=
  ⟨by decide, by decide,
   extract_gate_spec patternOnlyDom (by decide) (by decide) (by decide)⟩

/-- C5: the recommendation parser emits exactly one entry per fragment
whose parse does not throw and whose derived identifier is non-empty,
in the original relative order of the fragments; identifier-less fragments
and fragments whose parse throws are skipped silently without aborting
the batch; in particular a batch of 5 fragments with one
identifier-less fragment yields exactly 4 entries. -/
theorem recommendation_parser_spec :
    (∀ l : List RecFragment, parseRecs l = (l.filter recOk).map mkEntry) ∧
    (parseRecs batch5).length = 4 ∧
    parseRecs batch5 =
      [mkEntry (frag (("t1").data) (("a1").data) (("id1").data)),
       mkEntry (frag (("t2").data) (("a2").data) (("id2").data)),
       mkEntry (frag (("t4").data) (("a4").data) (("id4").data)),
       mkEntry (frag (("t5").data) (("a5").data) (("id5").data))] ∧
    parseRecs (fragThrow :: batch5) = parseRecs batch5 := by
  refine ⟨?_, by decide, by decide, by decide⟩
  intro l
  induction l with
  | nil => rfl
  | cons f rest ih =>
    rcases hth : f.throwErr with _ | e
    · by_cases hid : (derivedId f).isEmpty = true
      · have hok : recOk f = false := by simp [recOk, hid]
        simp [parseRecs, hth, hid, List.filter_cons, hok, ih]
      · have hid2 : (derivedId f).isEmpty = false := by simpa using hid
        have hok : recOk f = true := by simp [recOk, hth, hid2]
        simp [parseRecs, hth, hid2, List.filter_cons, hok, ih]
    · have hok : recOk f = false := by simp [recOk, hth]
      simp [parseRecs, hth, List.filter_cons, hok, ih]

/-- C6: on the mock page containing "Key: F Minor", "120 BPM" and
"Energy: 75 Energy" (with an `h1` title so the gate passes) the
pattern pass extracts key "F Minor", bpm "120" and energy "75"; and in
the per-field pattern loop the first pattern producing a non-empty
value wins, with later patterns not attempted. -/
theorem pattern_pass_spec :
    (extract mockDom).map (fun d => (d.key, d.bpm, d.energy)) =
      some ((("F Minor").data), (("120").data), (("75").data)) ∧
    (∀ p rest text, findTextP p text ≠ [] →
      tryPatterns text (p :: rest) = findTextP p text) := by
  constructor
  · decide
  · intro p rest text h
    have h2 : (findTextP p text).isEmpty = false := by
      cases hv : findTextP p text with
      | nil => exact absurd hv h
      | cons x xs => rfl
    simp [tryPatterns, h2]

/-- Witness for `pattern_pass_spec` at a concrete pattern and text. -/
theorem pattern_pass_spec_witness :
    findTextP pBpmBare (("7 bpm").data) ≠ [] ∧
    tryPatterns (("7 bpm").data) (pBpmBare :: [pKeyCore]) =
      findTextP pBpmBare (("7 bpm").data) :=
  ⟨by decide, pattern_pass_spec.2 pBpmBare [pKeyCore] (("7 bpm").data) (by decide)⟩

/-- C7 counterexample: an image whose alt is "ALBUM cover" (and whose
src does not contain "album") is not selected — the CSS attribute
substring match is case-sensitive — so album art is the empty string
and not the src of that image, contrary to the case-insensitive claim. -/
theorem album_art_case_cex :
    albumArtOf [imgALBUM] = [] ∧ imgALBUM.src ≠ [] ∧
      albumArtOf [imgALBUM] ≠ imgALBUM.src := by
  decide

/-- `find?` over a prefix of non-matching images selects the first
matching one. -/
theorem find_append_first {i : Img} (post : List Img) :
    ∀ pre : List Img, albumSelMatches i = true →
      (∀ j ∈ pre, albumSelMatches j = false) →
      (pre ++ i :: post).find? albumSelMatches = some i := by
  intro pre
  induction pre with
  | nil =>
    intro hm _
    exact List.find?_cons_of_pos _ hm
  | cons x xs ih =>
    intro hm hpre
    have hx : albumSelMatches x = false := hpre x (List.mem_cons_self _ _)
    rw [List.cons_append, List.find?_cons_of_neg _ (by simp [hx])]
    exact ih hm (fun j hj => hpre j (List.mem_cons_of_mem _ hj))

/-- C7 amended: the album art value is the src of the first image whose
alt contains the exact substring "album" or "Album" or whose src
contains "album" (case-sensitively), and the empty string when no image
matches. -/
theorem album_art_spec (imgs : List Img) :
    ((∀ i ∈ imgs, albumSelMatches i = false) → albumArtOf imgs = []) ∧
    (∀ pre i post, imgs = pre ++ i :: post → albumSelMatches i = true →
      (∀ j ∈ pre, albumSelMatches j = false) → albumArtOf imgs = i.src) := by
  constructor
  · intro h
    have hnone : imgs.find? albumSelMatches = none :=
      List.find?_eq_none.mpr (fun a ha => by simp [h a ha])
    simp [albumArtOf, hnone]
  · intro pre i post hdec hm hpre
    subst hdec
    have hfind := find_append_first post pre hm hpre
    simp [albumArtOf, hfind]

/-- Witness for `album_art_spec`: the upper-case image is skipped and a
later image whose alt contains lower-case "album" is selected. -/
theorem album_art_spec_witness :
    albumArtOf [imgALBUM] = [] ∧
    albumArtOf [imgALBUM, ⟨("an album cover").data, ("y.png").data⟩] = ("y.png").data := by
  constructor
  · exact (album_art_spec [imgALBUM]).1 (by decide)
  · exact (album_art_spec [imgALBUM, ⟨("an album cover").data, ("y.png").data⟩]).2
      [imgALBUM] ⟨("an album cover").data, ("y.png").data⟩ [] rfl (by decide) (by decide)

/-- A record produced by `extract` always has at least one non-empty
anchor field among title, artist, album. -/
theorem extract_some_anchor {dom : Dom} {d : TrackData} (h : extract dom = some d) :
    d.title ≠ [] ∨ d.artist ≠ [] ∨ d.album ≠ [] := by
  simp only [extract] at h
  split at h
  · cases h
  · rename_i hcond
    injection h with h
    subst h
    show getText dom titleSelectors ≠ [] ∨ getText dom artistSelectors ≠ [] ∨
      getText dom albumSelectors ≠ []
    by_contra hall
    push_neg at hall
    exact hcond (by simp [hall.1, hall.2.1, hall.2.2])

/-- C9: a successful result always carries a record coming from the
extractor, hence with at least one non-empty anchor field among title,
artist and album (and with its recommendation list); on the loop path a
failure carries the empty record and the error message
"Failed to extract data". -/
theorem result_wellformed_spec (env : Env) (a s t : List Char) :
    (∀ r, scrapeTunebatData env a s t = .ok r → r.success = true →
      ∃ d dm, r.data = some d ∧ extract dm = some d ∧
        (d.title ≠ [] ∨ d.artist ≠ [] ∨ d.album ≠ [])) ∧
    (∀ w, env.whichChromium = .ok w → env.launch = .ok () → env.setup = .ok () →
      (scrapeLoop env.attempts).result = none →
      scrapeTunebatData env a s t =
        .ok ⟨false, some (tunebatUrl s a t), none, some failedMsg, debugPath⟩) := by
  constructor
  · intro r hr hsucc
    simp only [scrapeTunebatData] at hr
    rcases hwc : env.whichChromium with m | w
    · rw [hwc] at hr
      cases hr
    · rw [hwc] at hr
      rcases hl : env.launch with m | u
      · rw [hl] at hr
        cases hr
      · rw [hl] at hr
        rcases hst : env.setup with m | u2
        · rw [hst] at hr
          simp only [Except.ok.injEq] at hr
          subst hr
          cases hsucc
        · rw [hst] at hr
          rcases hres : (scrapeLoop env.attempts).result with _ | d
          · rw [hres] at hr
            simp only [Except.ok.injEq] at hr
            subst hr
            cases hsucc
          · rw [hres] at hr
            simp only [Except.ok.injEq] at hr
            subst hr
            obtain ⟨dm, hdm⟩ := runLoop_result_extract (n := 3) (i := 0) hres
            exact ⟨d, dm, rfl, hdm, extract_some_anchor hdm⟩
  · intro w hwc hl hst hres
    simp only [scrapeTunebatData, hwc, hl, hst]
    simp [hres]

/-- Witness for `result_wellformed_spec` at concrete environments. -/
theorem result_wellformed_spec_witness :
    (∃ d dm,
      (⟨true, some (tunebatUrl [] [] []), some dGood, none, debugPath⟩ :
        ScrapeResult).data = some d ∧ extract dm = some d ∧
        (d.title ≠ [] ∨ d.artist ≠ [] ∨ d.album ≠ [])) ∧
    scrapeTunebatData envNoData [] [] [] =
      .ok ⟨false, some (tunebatUrl [] [] []), none, some failedMsg, debugPath⟩ := by
  constructor
  · exact (result_wellformed_spec envGood [] [] []).1
      ⟨true, some (tunebatUrl [] [] []), some dGood, none, debugPath⟩ rfl rfl
  · exact (result_wellformed_spec envNoData [] [] []).2 chromiumPath rfl rfl rfl (by decide)

end Scraper
